import Mathlib

/-!
Verification development for the BF6_TTK weapon-analytics engine.

The JavaScript source (js/utils.js, js/data.js) is shallowly embedded here:
JavaScript numbers are modeled as exact rationals (`ℚ`); the JavaScript
`null`/`undefined`/`NaN` "unknown" results are modeled as `Option`, matching the
engine's own convention that every numeric field is either a finite number or
unknown.  Fallible computations return `Option`.
-/

namespace BF6

/-- Model of `Math.round` (rounds half toward positive infinity): `⌊x + 1/2⌋`. -/
def jsRound (q : ℚ) : ℤ := ⌊q + 1/2⌋

/-- Rounding to one decimal place, `Math.round(x * 10) / 10`, as used by the TTK
and damage-dropoff calculators. -/
def round1 (q : ℚ) : ℚ := (jsRound (q * 10) : ℚ) / 10

/-- The zero-floor substitution `finalTTK === 0 ? 1 : finalTTK`. -/
def zeroFloor (q : ℚ) : ℚ := if q = 0 then 1 else q

/-- The guard `(adsTime || 0)` applied to an optional number: `null`/`undefined` and `0`
both collapse to `0`, any other number is kept. -/
def jsOrZero (a : Option ℚ) : ℚ := a.getD 0

/-! ### The numeric parse layer (js/data.js `parseNumeric` over `parseFloat`)

`parseFloat` is the ECMAScript builtin: it skips leading whitespace, then
converts the longest prefix that forms a decimal literal (optionally signed,
with optional fraction, optional exponent, or the word `Infinity`); if no
prefix parses it yields `NaN`.  A JavaScript parse result is modeled by
`JSVal`; exponents and mantissas are evaluated exactly in `ℚ`. -/

/-- A JavaScript `parseFloat` result: a finite number, `±Infinity`, or `NaN`. -/
inductive JSVal where
  | fin (q : ℚ)
  | posInf
  | negInf
  | nan
deriving DecidableEq

/-- ASCII whitespace skipped by `parseFloat` and trimmed by `String.trim`. -/
def isJSWhitespace (c : Char) : Bool :=
  c = ' ' || c = '\t' || c = '\n' || c = '\r' || c = '\x0b' || c = '\x0c'

/-- Value of a digit string, most significant first. -/
def digitsVal (l : List Char) : ℕ :=
  l.foldl (fun a c => 10 * a + (c.toNat - 48)) 0

/-- Unsigned parse outcome: a finite value or `Infinity`. -/
inductive UVal where
  | fin (q : ℚ)
  | inf
deriving DecidableEq

/-- Consume an optional exponent part (`e`/`E`, optional sign, digits); if the
characters after `e` do not form an exponent the parser backtracks and leaves
them unconsumed, as `parseFloat` does. -/
def applyExponent (q : ℚ) (cs : List Char) : ℚ × List Char :=
  match cs with
  | c :: rest =>
    if c = 'e' ∨ c = 'E' then
      match rest with
      | s :: rest2 =>
        if s = '+' then
          let p := rest2.span Char.isDigit
          if p.1 = [] then (q, cs) else (q * (10 : ℚ) ^ digitsVal p.1, p.2)
        else if s = '-' then
          let p := rest2.span Char.isDigit
          if p.1 = [] then (q, cs) else (q / (10 : ℚ) ^ digitsVal p.1, p.2)
        else
          let p := rest.span Char.isDigit
          if p.1 = [] then (q, cs) else (q * (10 : ℚ) ^ digitsVal p.1, p.2)
      | [] => (q, cs)
    else (q, cs)
  | [] => (q, cs)

/-- Longest-prefix parse of an unsigned decimal literal
(`Infinity`, `digits[.digits][exp]`, or `.digits[exp]`).
Returns the value and the unconsumed remainder, or `none` when no prefix
parses (JavaScript `NaN`). -/
def parseUnsigned (cs : List Char) : Option (UVal × List Char) :=
  if cs.take 8 = "Infinity".data then
    some (UVal.inf, cs.drop 8)
  else
    let p := cs.span Char.isDigit
    if p.1 = [] then
      match cs with
      | '.' :: r2 =>
        let f := r2.span Char.isDigit
        if f.1 = [] then none
        else
          let v : ℚ := (digitsVal f.1 : ℚ) / (10 : ℚ) ^ f.1.length
          let e := applyExponent v f.2
          some (UVal.fin e.1, e.2)
      | _ => none
    else
      match p.2 with
      | '.' :: r2 =>
        let f := r2.span Char.isDigit
        let v : ℚ := (digitsVal p.1 : ℚ) + (digitsVal f.1 : ℚ) / (10 : ℚ) ^ f.1.length
        let e := applyExponent v f.2
        some (UVal.fin e.1, e.2)
      | r1 =>
        let e := applyExponent (digitsVal p.1 : ℚ) r1
        some (UVal.fin e.1, e.2)

/-- Signed longest-prefix literal parse, used by both the builtin model and the
strict full-string parse.  Returns value and remainder. -/
def parseSigned (cs : List Char) : Option (JSVal × List Char) :=
  match cs with
  | '+' :: r =>
    match parseUnsigned r with
    | some (UVal.fin q, rest) => some (JSVal.fin q, rest)
    | some (UVal.inf, rest) => some (JSVal.posInf, rest)
    | none => none
  | '-' :: r =>
    match parseUnsigned r with
    | some (UVal.fin q, rest) => some (JSVal.fin (-q), rest)
    | some (UVal.inf, rest) => some (JSVal.negInf, rest)
    | none => none
  | _ =>
    match parseUnsigned cs with
    | some (UVal.fin q, rest) => some (JSVal.fin q, rest)
    | some (UVal.inf, rest) => some (JSVal.posInf, rest)
    | none => none

/-- Model of the ECMAScript `parseFloat` builtin: skip leading whitespace,
convert the longest numeric-literal prefix; `NaN` when none exists. -/
def jsParseFloat (s : String) : JSVal :=
  match parseSigned (s.data.dropWhile isJSWhitespace) with
  | some (v, _) => v
  | none => JSVal.nan

/-- js/data.js `parseNumeric`: `null`/`undefined`/`''` and any `NaN` parse give
`null` (unknown); otherwise the `parseFloat` result is kept. -/
def parseNumeric (v : Option String) : Option JSVal :=
  match v with
  | none => none
  | some s =>
    if s = "" then none
    else
      match jsParseFloat s with
      | JSVal.nan => none
      | w => some w

/-- Model of JavaScript `String.prototype.trim` (ASCII whitespace). -/
def jsTrim (s : String) : String :=
  ⟨((s.data.dropWhile isJSWhitespace).reverse.dropWhile isJSWhitespace).reverse⟩

/-- Modelled from the spec: the strict parse the specification describes
("a field is known iff its trimmed raw value is non-empty and parses as a
finite number") — the whole string must form one finite decimal literal, with
nothing left over.  This definition follows the spec's words; it exists to be
compared against the source's `parseNumeric`. -/
def strictFiniteParse (s : String) : Option ℚ :=
  match parseSigned s.data with
  | some (JSVal.fin q, []) => some q
  | _ => none

/-! ### Metric calculators (js/utils.js)

The calculators act on the engine's weapon-record data model: each numeric
field is a finite number (`ℚ`) or unknown (`none`).  JavaScript's falsy guard
`!damage || damage <= 0` collapses to `none`-or-`≤ 0` here (a `NaN` argument
arises only from a failed parse, which this model already stores as `none`). -/

def PLAYER_HEALTH : ℚ := 100

/-- Accuracy multiplier by range; unknown ranges give `1.0`. -/
def getRangeAccuracyMultiplier (range : String) : ℚ :=
  if range = "10M" then 1
  else if range = "20M" then 95/100
  else if range = "35M" then 9/10
  else if range = "50M" then 85/100
  else if range = "70M" then 8/10
  else 1

/-- js/utils.js `calculateTTK(damage, rpm, adsTime = 0)`.  The JavaScript
optional argument (and its `(adsTime || 0)` guard) is the `Option ℚ` argument
here: callers that omit it pass `none`. -/
def calculateTTK (damage rpm : Option ℚ) (adsTime : Option ℚ) : Option ℚ :=
  match damage, rpm with
  | some d, some r =>
    if d ≤ 0 ∨ r ≤ 0 then none
    else
      let shotsToKill : ℤ := ⌈PLAYER_HEALTH / d⌉
      let timeBetweenShots : ℚ := 60000 / r
      let ttk : ℚ := (shotsToKill - 1) * timeBetweenShots + jsOrZero adsTime
      some (zeroFloor (round1 ttk))
  | _, _ => none

/-- js/utils.js `calculateShotsToKill`. -/
def calculateShotsToKill (damage : Option ℚ) : Option ℤ :=
  match damage with
  | some d => if d ≤ 0 then none else some ⌈PLAYER_HEALTH / d⌉
  | none => none

/-- JavaScript `String.prototype.toUpperCase` (ASCII case mapping, which is all
the immunity comparison below needs). -/
def jsToUpperCase (s : String) : String := ⟨s.data.map Char.toUpper⟩

/-- js/utils.js `calculateRecoilAdjustedTTK`.  `precision` and `control` are
the numeric values in effect at lines 73–90 (the JavaScript defaults of 100
are applied at the call boundary). -/
def calculateRecoilAdjustedTTK (damage rpm : Option ℚ) (precision control : ℚ)
    (range weaponType : String) : Option ℚ :=
  match damage, rpm with
  | some d, some r =>
    if d ≤ 0 ∨ r ≤ 0 then none
    else
      let requiredHits : ℤ := ⌈PLAYER_HEALTH / d⌉
      let type := jsToUpperCase weaponType
      if type = "SNIPER RIFLE" ∨ type = "SHOTGUN" then
        some (zeroFloor (round1 ((requiredHits - 1) * (60000 / r))))
      else
        let hitPct : ℚ := (precision / 100) * (control / 100) * getRangeAccuracyMultiplier range
        let hitPct2 : ℚ := if range = "10M" then max hitPct (9/10) else hitPct
        let p : ℚ := min 1 (max (1/20) hitPct2)
        let expectedShots : ℤ := ⌈(requiredHits : ℚ) / p⌉
        some (zeroFloor (round1 ((expectedShots - 1) * (60000 / r))))
  | _, _ => none

/-! ### Weapon records and collection-level functions -/

/-- A processed weapon record as consumed by the query/aggregation functions:
trimmed name and type, per-range damages, RPM, DPS, ADS, each numeric field
finite-or-unknown. -/
structure Weapon where
  weaponType : String
  weapon : String
  d10M : Option ℚ
  d20M : Option ℚ
  d35M : Option ℚ
  d50M : Option ℚ
  d70M : Option ℚ
  RPM : Option ℚ
  DPS : Option ℚ
  ADS : Option ℚ
deriving DecidableEq

/-- The JavaScript property access `w[range]` for the five range columns;
any other key reads an absent property (unknown). -/
def damageAt (w : Weapon) (range : String) : Option ℚ :=
  if range = "10M" then w.d10M
  else if range = "20M" then w.d20M
  else if range = "35M" then w.d35M
  else if range = "50M" then w.d50M
  else if range = "70M" then w.d70M
  else none

/-- js/utils.js `getDamageDropoff`: the `!startDamage || !endDamage` guard
fails the computation when either damage is unknown (`parseFloat` gave `NaN`)
or equal to `0` (falsy). -/
def getDamageDropoff (w : Weapon) (rangeStart rangeEnd : String) : Option ℚ :=
  match damageAt w rangeStart, damageAt w rangeEnd with
  | some s, some e =>
    if s = 0 ∨ e = 0 then none
    else some (round1 ((s - e) / s * 100))
  | _, _ => none

/-- js/utils.js `isWeaponDataComplete`: name and type non-empty, and RPM, ADS
and all five range damages known (zero counts as known). -/
def isWeaponDataComplete (w : Weapon) : Bool :=
  w.weapon ≠ "" && w.weaponType ≠ "" && w.RPM.isSome && w.ADS.isSome &&
  w.d10M.isSome && w.d20M.isSome && w.d35M.isSome && w.d50M.isSome && w.d70M.isSome

/-- The hip-fire TTK sort key of a record: `calculateTTK(parseFloat(a[range]),
parseFloat(a.RPM))` (two-argument call, so no ADS). -/
def ttkOf (w : Weapon) (range : String) : Option ℚ :=
  calculateTTK (damageAt w range) w.RPM none

/-- The effective order key of the `'ttk'` comparator `(aValue || Infinity) -
(bValue || Infinity)`: a falsy TTK (undefined, or the impossible `0`) becomes
`+∞`. -/
def ttkSortKey (w : Weapon) (range : String) : WithTop ℚ :=
  match ttkOf w range with
  | none => ⊤
  | some v => if v = 0 then ⊤ else (v : WithTop ℚ)

/-- The Boolean order of the `'ttk'` comparator (`a` may come before `b`). -/
def ttkLE (range : String) (a b : Weapon) : Bool :=
  decide (ttkSortKey a range ≤ ttkSortKey b range)

/-- js/utils.js `sortWeapons`.  `Array.prototype.sort` is a stable sort; each
comparator branch induces the total preorder used here (for two `+∞` keys the
JavaScript comparator yields `NaN`, which the sort treats as a tie, exactly as
`⊤ ≤ ⊤` does).  The source copies the input (`[...weapons]`) before sorting,
so the input list is untouched — inherent in this pure model. -/
def sortWeapons (ws : List Weapon) (sortBy range : String) : List Weapon :=
  if sortBy = "ttk" then
    ws.mergeSort (ttkLE range)
  else if sortBy = "damage" then
    ws.mergeSort (fun a b => decide (jsOrZero (damageAt b range) ≤ jsOrZero (damageAt a range)))
  else if sortBy = "rpm" then
    ws.mergeSort (fun a b => decide (jsOrZero b.RPM ≤ jsOrZero a.RPM))
  else if sortBy = "dps" then
    ws.mergeSort (fun a b => decide (jsOrZero b.DPS ≤ jsOrZero a.DPS))
  else
    ws.mergeSort (fun _ _ => true)

/-- Model of `[...new Set(list)]`: deduplicate keeping first occurrences in order. -/
def jsSetDedup (l : List String) : List String :=
  l.foldl (fun acc x => if x ∈ acc then acc else acc ++ [x]) []

structure WeaponStatistics where
  total : ℕ
  complete : ℕ
  incomplete : ℕ
  types : ℕ
  typesList : List String
  coverage : String
deriving DecidableEq

/-- The numeric coverage percentage computed by `getWeaponStatistics`:
`total > 0 ? Math.round((complete / total) * 100) : 0`. -/
def coverageValue (ws : List Weapon) : ℤ :=
  let total := ws.length
  let complete := (ws.filter (fun w => isWeaponDataComplete w)).length
  if 0 < total then jsRound ((complete : ℚ) / (total : ℚ) * 100) else 0

/-- js/utils.js `getWeaponStatistics`; the `coverage` field is the
template-literal string `` `${coverage}%` ``. -/
def getWeaponStatistics (ws : List Weapon) : WeaponStatistics :=
  let total := ws.length
  let complete := (ws.filter (fun w => isWeaponDataComplete w)).length
  let typesList := jsSetDedup (ws.map (·.weaponType))
  { total := total
    complete := complete
    incomplete := total - complete
    types := typesList.length
    typesList := typesList
    coverage := toString (coverageValue ws) ++ "%" }

/-- js/data.js `getWeaponsByType` at a single string argument (the call shape
`getWeaponTypeStats` uses): the empty string is falsy, so it and `'ALL'`
select everything. -/
def getWeaponsByType (data : List Weapon) (types : String) : List Weapon :=
  if types = "" ∨ types = "ALL" then data
  else data.filter (fun w => w.weaponType = types)

structure RangeStats where
  minDamage : ℚ
  maxDamage : ℚ
  avgDamage : ℚ
deriving DecidableEq

structure TypeStats where
  count : ℕ
  complete : ℕ
  rpmMin : JSVal
  rpmMax : JSVal
  rpmAvg : JSVal
  range10M : Option RangeStats
  range20M : Option RangeStats
  range35M : Option RangeStats
  range50M : Option RangeStats
  range70M : Option RangeStats
deriving DecidableEq

/-- Model of `Math.min(...l)`: `Infinity` on the empty spread. -/
def jsMinList (l : List ℚ) : JSVal :=
  match l with
  | [] => JSVal.posInf
  | x :: xs => JSVal.fin (xs.foldl min x)

/-- Model of `Math.max(...l)`: `-Infinity` on the empty spread. -/
def jsMaxList (l : List ℚ) : JSVal :=
  match l with
  | [] => JSVal.negInf
  | x :: xs => JSVal.fin (xs.foldl max x)

/-- JavaScript division of two finite numbers, with its `±Infinity`/`NaN`
results at a zero denominator. -/
def jsDivVal (a b : ℚ) : JSVal :=
  if b = 0 then
    if a = 0 then JSVal.nan else if 0 < a then JSVal.posInf else JSVal.negInf
  else JSVal.fin (a / b)

/-- The per-range block of `getWeaponTypeStats`: built only when at least one
damage at that range is known (`damages.length > 0`). -/
def mkRangeStats (ds : List ℚ) : Option RangeStats :=
  match ds with
  | [] => none
  | x :: xs =>
    some { minDamage := xs.foldl min x
           maxDamage := xs.foldl max x
           avgDamage := (ds.foldl (· + ·) 0) / (ds.length : ℚ) }

/-- The truthiness filter `weapons.filter(w => w.RPM)`: excludes unknown and
zero RPM. -/
def rpmTruthy (w : Weapon) : Bool :=
  match w.RPM with
  | some q => decide (q ≠ 0)
  | none => false

/-- js/data.js `getWeaponTypeStats` (over an explicit collection in place of
the module-level `weaponsData`). -/
def getWeaponTypeStats (data : List Weapon) (weaponType : String) : Option TypeStats :=
  let weapons := getWeaponsByType data weaponType
  if weapons.length = 0 then none
  else
    let knownRpms := weapons.filterMap (·.RPM)
    let rpmSum := weapons.foldl (fun s w => s + jsOrZero w.RPM) 0
    let rpmDen := (weapons.filter rpmTruthy).length
    some
      { count := weapons.length
        complete := (weapons.filter (fun w => isWeaponDataComplete w)).length
        rpmMin := jsMinList knownRpms
        rpmMax := jsMaxList knownRpms
        rpmAvg := jsDivVal rpmSum (rpmDen : ℚ)
        range10M := mkRangeStats (weapons.filterMap (·.d10M))
        range20M := mkRangeStats (weapons.filterMap (·.d20M))
        range35M := mkRangeStats (weapons.filterMap (·.d35M))
        range50M := mkRangeStats (weapons.filterMap (·.d50M))
        range70M := mkRangeStats (weapons.filterMap (·.d70M)) }

/-! ### The normalizer (js/data.js `processWeaponData`)

Raw rows arrive as column-name→raw-string mappings (Papa Parse with
`dynamicTyping: false`); an absent column is `undefined` (`none`).  Stored
numeric fields keep the full `parseFloat` outcome (`JSVal`); the derived
fields feed through `finOf` into the rational calculator layer — the
non-finite parse (the literal `Infinity`) has no rational counterpart and is
treated as unknown by the derived computations here. -/

structure RawRow where
  weaponType : Option String
  weapon : Option String
  d10M : Option String
  d20M : Option String
  d35M : Option String
  d50M : Option String
  d70M : Option String
  rpm : Option String
  dps : Option String
  ads : Option String

def finOf (x : Option JSVal) : Option ℚ :=
  match x with
  | some (JSVal.fin q) => some q
  | _ => none

structure ProcessedWeapon where
  weaponType : String
  weapon : String
  d10M : Option JSVal
  d20M : Option JSVal
  d35M : Option JSVal
  d50M : Option JSVal
  d70M : Option JSVal
  RPM : Option JSVal
  DPS : Option JSVal
  ADS : Option JSVal
  ttk10M : Option ℚ
  ttk20M : Option ℚ
  ttk35M : Option ℚ
  ttk50M : Option ℚ
  ttk70M : Option ℚ
  stk10M : Option ℤ
  stk20M : Option ℤ
  stk35M : Option ℤ
  stk50M : Option ℤ
  stk70M : Option ℤ
  isComplete : Bool
  averageDamage : Option ℚ
deriving DecidableEq

/-- js/utils.js `getAverageDamage` applied to the freshly built record. -/
def averageOf (ds : List (Option JSVal)) : Option ℚ :=
  let ks := ds.filterMap finOf
  match ks with
  | [] => none
  | _ => some ((ks.foldl (· + ·) 0) / (ks.length : ℚ))

/-- One row of `processWeaponData`'s `.map`: trim the string fields, parse the
numeric fields, then attach the derived TTK/STK/completeness/average fields. -/
def mkProcessedWeapon (row : RawRow) : ProcessedWeapon :=
  let wt := jsTrim (row.weaponType.getD "")
  let wn := jsTrim (row.weapon.getD "")
  let d10 := parseNumeric row.d10M
  let d20 := parseNumeric row.d20M
  let d35 := parseNumeric row.d35M
  let d50 := parseNumeric row.d50M
  let d70 := parseNumeric row.d70M
  let rpm := parseNumeric row.rpm
  let ads := parseNumeric row.ads
  { weaponType := wt
    weapon := wn
    d10M := d10
    d20M := d20
    d35M := d35
    d50M := d50
    d70M := d70
    RPM := rpm
    DPS := parseNumeric row.dps
    ADS := ads
    ttk10M := calculateTTK (finOf d10) (finOf rpm) none
    ttk20M := calculateTTK (finOf d20) (finOf rpm) none
    ttk35M := calculateTTK (finOf d35) (finOf rpm) none
    ttk50M := calculateTTK (finOf d50) (finOf rpm) none
    ttk70M := calculateTTK (finOf d70) (finOf rpm) none
    stk10M := calculateShotsToKill (finOf d10)
    stk20M := calculateShotsToKill (finOf d20)
    stk35M := calculateShotsToKill (finOf d35)
    stk50M := calculateShotsToKill (finOf d50)
    stk70M := calculateShotsToKill (finOf d70)
    isComplete := wn ≠ "" && wt ≠ "" && rpm.isSome && ads.isSome &&
      d10.isSome && d20.isSome && d35.isSome && d50.isSome && d70.isSome
    averageDamage := averageOf [d10, d20, d35, d50, d70] }

/-- js/data.js `processWeaponData`: map each raw row to a record, then drop
rows whose name or type is empty. -/
def processWeaponData (rows : List RawRow) : List ProcessedWeapon :=
  (rows.map mkProcessedWeapon).filter (fun w => w.weapon ≠ "" && w.weaponType ≠ "")

/-! ## Shared lemmas about the calculators -/

lemma qceil_eq (n : ℤ) {q : ℚ} (h1 : (n : ℚ) - 1 < q) (h2 : q ≤ (n : ℚ)) : ⌈q⌉ = n :=
  Int.ceil_eq_iff.mpr ⟨by exact_mod_cast h1, by exact_mod_cast h2⟩

lemma round1_eval (m : ℤ) {t : ℚ} (h1 : (m : ℚ) ≤ t * 10 + 1/2) (h2 : t * 10 + 1/2 < (m : ℚ) + 1) :
    round1 t = (m : ℚ) / 10 := by
  unfold round1 jsRound
  rw [show ⌊t * 10 + 1/2⌋ = m from Int.floor_eq_iff.mpr ⟨by exact_mod_cast h1, by exact_mod_cast h2⟩]

lemma zeroFloor_ne_zero (q : ℚ) : zeroFloor q ≠ 0 := by
  unfold zeroFloor
  split
  · norm_num
  · assumption

lemma round1_nonneg {q : ℚ} (h : 0 ≤ q) : 0 ≤ round1 q := by
  unfold round1 jsRound
  have h1 : (0 : ℤ) ≤ ⌊q * 10 + 1/2⌋ := by
    rw [Int.le_floor]
    push_cast
    linarith
  have h2 : (0 : ℚ) ≤ (⌊q * 10 + 1/2⌋ : ℚ) := by exact_mod_cast h1
  linarith

lemma zeroFloor_pos {q : ℚ} (h : 0 ≤ q) : 0 < zeroFloor q := by
  unfold zeroFloor
  split
  · norm_num
  · exact lt_of_le_of_ne h (Ne.symm (by assumption))

lemma requiredHits_pos {d : ℚ} (hd : 0 < d) : 1 ≤ ⌈PLAYER_HEALTH / d⌉ := by
  have : 0 < ⌈PLAYER_HEALTH / d⌉ := Int.ceil_pos.mpr (div_pos (by norm_num [PLAYER_HEALTH]) hd)
  omega

lemma calculateTTK_pos_eq {d r : ℚ} (hd : 0 < d) (hr : 0 < r) (a : Option ℚ) :
    calculateTTK (some d) (some r) a =
      some (zeroFloor (round1 (((⌈PLAYER_HEALTH / d⌉ : ℚ) - 1) * (60000 / r) + jsOrZero a))) := by
  simp only [calculateTTK]
  have hng : ¬(d ≤ 0 ∨ r ≤ 0) := by push_neg; exact ⟨hd, hr⟩
  rw [if_neg hng]

lemma calculateTTK_some_pos {d r : ℚ} {a : Option ℚ} {v : ℚ}
    (hd : 0 < d) (hr : 0 < r) (ha : 0 ≤ jsOrZero a)
    (h : calculateTTK (some d) (some r) a = some v) : 0 < v := by
  rw [calculateTTK_pos_eq hd hr] at h
  have hraw : (0 : ℚ) ≤ ((⌈PLAYER_HEALTH / d⌉ : ℚ) - 1) * (60000 / r) + jsOrZero a := by
    have h1 : (1 : ℚ) ≤ (⌈PLAYER_HEALTH / d⌉ : ℚ) := by exact_mod_cast requiredHits_pos hd
    have h2 : (0 : ℚ) < 60000 / r := by positivity
    nlinarith
  have hv := Option.some.inj h
  rw [← hv]
  exact zeroFloor_pos (round1_nonneg hraw)

lemma zeroFloor_round1_shots_pos {k : ℤ} {t v : ℚ} (hk : 1 ≤ k) (ht : 0 < t)
    (h : some (zeroFloor (round1 (((k : ℚ) - 1) * t))) = some v) : 0 < v := by
  have hv := Option.some.inj h
  rw [← hv]
  apply zeroFloor_pos (round1_nonneg _)
  have hk' : (0 : ℚ) ≤ (k : ℚ) - 1 := by
    have : (1 : ℚ) ≤ (k : ℚ) := by exact_mod_cast hk
    linarith
  exact mul_nonneg hk' ht.le

lemma clampedProb_pos (x : ℚ) : 0 < min 1 (max (1/20) x) := by
  apply lt_min one_pos
  calc (0 : ℚ) < 1/20 := by norm_num
    _ ≤ max (1/20) x := le_max_left _ _

lemma recoil_expectedShots_pos {d p : ℚ} (hd : 0 < d) (hp : 0 < p) :
    1 ≤ ⌈(⌈PLAYER_HEALTH / d⌉ : ℚ) / p⌉ := by
  have h1 : (1 : ℚ) ≤ (⌈PLAYER_HEALTH / d⌉ : ℚ) := by exact_mod_cast requiredHits_pos hd
  have h2 : 0 < (⌈PLAYER_HEALTH / d⌉ : ℚ) / p := div_pos (by linarith) hp
  have := Int.ceil_pos.mpr h2
  omega

lemma calculateTTK_some_ne_zero {d r a : Option ℚ} {v : ℚ}
    (h : calculateTTK d r a = some v) : v ≠ 0 := by
  rcases d with _ | dv
  · simp [calculateTTK] at h
  rcases r with _ | rv
  · simp [calculateTTK] at h
  simp only [calculateTTK] at h
  split at h
  · exact absurd h (by simp)
  · have hv := Option.some.inj h
    rw [← hv]
    exact zeroFloor_ne_zero _

lemma recoil_nonimmune_eval {d r prec ctrl : ℚ} {range wt : String}
    (hd : 0 < d) (hr : 0 < r)
    (him : ¬(jsToUpperCase wt = "SNIPER RIFLE" ∨ jsToUpperCase wt = "SHOTGUN"))
    (k e : ℤ) (p : ℚ)
    (hk : ⌈PLAYER_HEALTH / d⌉ = k)
    (hp : min 1 (max (1/20) (if range = "10M"
            then max ((prec/100) * (ctrl/100) * getRangeAccuracyMultiplier range) (9/10)
            else (prec/100) * (ctrl/100) * getRangeAccuracyMultiplier range)) = p)
    (he : ⌈(k : ℚ) / p⌉ = e) :
    calculateRecoilAdjustedTTK (some d) (some r) prec ctrl range wt =
      some (zeroFloor (round1 (((e : ℚ) - 1) * (60000 / r)))) := by
  simp only [calculateRecoilAdjustedTTK]
  rw [if_neg (by push_neg; exact ⟨hd, hr⟩), if_neg him, hk, hp, he]

lemma calculateRecoilAdjustedTTK_some_pos {d r : Option ℚ} {p c : ℚ} {rg wt : String} {v : ℚ}
    (h : calculateRecoilAdjustedTTK d r p c rg wt = some v) : 0 < v := by
  rcases d with _ | dv
  · simp [calculateRecoilAdjustedTTK] at h
  rcases r with _ | rv
  · simp [calculateRecoilAdjustedTTK] at h
  simp only [calculateRecoilAdjustedTTK] at h
  by_cases hg : dv ≤ 0 ∨ rv ≤ 0
  · rw [if_pos hg] at h
    exact absurd h (by simp)
  rw [if_neg hg] at h
  push_neg at hg
  have ht : 0 < 60000 / rv := div_pos (by norm_num) hg.2
  split at h
  · exact zeroFloor_round1_shots_pos (requiredHits_pos hg.1) ht h
  · exact zeroFloor_round1_shots_pos
      (recoil_expectedShots_pos hg.1 (clampedProb_pos _)) ht h

/-! ## Claim theorems -/

/-- C1 (amended): `calculateTTK(d, r, ads)` is undefined exactly when damage
or rpm is unknown or ≤ 0; otherwise it returns
`(ceil(100/d) - 1) * (60000/r) + ads` rounded to one decimal place, with the
substitution of 1 applied exactly when that rounded value is 0; and for every
`d > 0`, `r > 0` with `ads = 0` the result is strictly positive.  (The
original bound `≥ 1` fails for large rpm — see the counterexample.) -/
theorem claim1_calculateTTK (d r : Option ℚ) (a : ℚ) :
    (calculateTTK d r (some a) = none ↔
      d.elim True (fun x => x ≤ 0) ∨ r.elim True (fun x => x ≤ 0)) ∧
    (∀ dv rv : ℚ, d = some dv → r = some rv → 0 < dv → 0 < rv →
      calculateTTK d r (some a) =
        some (let rounded : ℚ :=
                ((⌊(((⌈(100 : ℚ) / dv⌉ : ℚ) - 1) * (60000 / rv) + a) * 10 + 1/2⌋ : ℤ) : ℚ) / 10
              if rounded = 0 then 1 else rounded)) ∧
    (∀ dv rv v : ℚ, d = some dv → r = some rv → 0 < dv → 0 < rv →
      calculateTTK d r (some 0) = some v → 0 < v) := by
  refine ⟨?_, ?_, ?_⟩
  · rcases d with _ | dv <;> rcases r with _ | rv
    · simp [calculateTTK]
    · simp [calculateTTK]
    · simp [calculateTTK]
    · simp only [calculateTTK, Option.elim]
      split
      · simp_all
      · simp_all
  · intro dv rv hdeq hreq hd hr
    subst hdeq; subst hreq
    rw [calculateTTK_pos_eq hd hr]
    simp only [round1, jsRound, jsOrZero, zeroFloor, Option.getD, PLAYER_HEALTH]
  · intro dv rv v hdeq hreq hd hr h
    subst hdeq; subst hreq
    exact calculateTTK_some_pos hd hr (by simp [jsOrZero]) h

/-- C1 counterexample: for damage 50 and rpm 100000 (both positive) the
defined hip-fire TTK is 0.6 ms, which is not ≥ 1 — refuting the claim's
final clause. -/
theorem claim1_counterexample :
    calculateTTK (some 50) (some 100000) (some 0) = some (3/5) ∧ ¬ (1 ≤ (3/5 : ℚ)) := by
  constructor
  · rw [calculateTTK_pos_eq (by norm_num) (by norm_num)]
    rw [show ⌈PLAYER_HEALTH / (50 : ℚ)⌉ = 2 from
      qceil_eq 2 (by norm_num [PLAYER_HEALTH]) (by norm_num [PLAYER_HEALTH])]
    rw [round1_eval 6 (by norm_num [jsOrZero]) (by norm_num [jsOrZero])]
    norm_num [zeroFloor]
  · norm_num

/-- C1 witness: the amended theorem applied at damage 75, rpm 40, ADS 0. -/
theorem claim1_witness :
    calculateTTK (some 75) (some 40) (some 0) = some 1500 ∧ (0 : ℚ) < 1500 := by
  have e : calculateTTK (some 75) (some 40) (some 0) = some 1500 := by
    rw [calculateTTK_pos_eq (by norm_num) (by norm_num)]
    rw [show ⌈PLAYER_HEALTH / (75 : ℚ)⌉ = 2 from
      qceil_eq 2 (by norm_num [PLAYER_HEALTH]) (by norm_num [PLAYER_HEALTH])]
    rw [round1_eval 15000 (by norm_num [jsOrZero]) (by norm_num [jsOrZero])]
    norm_num [zeroFloor]
  have h := (claim1_calculateTTK (some 75) (some 40) 0).2.2 75 40 1500 rfl rfl
    (by norm_num) (by norm_num)
  exact ⟨e, h e⟩

/-- C3: for positive damage and rpm, a weapon type that upper-cases to
`SNIPER RIFLE` or `SHOTGUN` makes `calculateRecoilAdjustedTTK` ignore ADS,
precision, control and range entirely: it returns
`(ceil(100/d) - 1) * (60000/r)` rounded to one decimal with the zero-floor
substitution, which is exactly the base hip-fire `calculateTTK(d, r)`. -/
theorem claim3_immunity (d r prec ctrl : ℚ) (range wt : String)
    (hd : 0 < d) (hr : 0 < r)
    (himm : jsToUpperCase wt = "SNIPER RIFLE" ∨ jsToUpperCase wt = "SHOTGUN") :
    calculateRecoilAdjustedTTK (some d) (some r) prec ctrl range wt =
      some (let rounded : ℚ :=
              ((⌊(((⌈(100 : ℚ) / d⌉ : ℚ) - 1) * (60000 / r)) * 10 + 1/2⌋ : ℤ) : ℚ) / 10
            if rounded = 0 then 1 else rounded) ∧
    calculateRecoilAdjustedTTK (some d) (some r) prec ctrl range wt =
      calculateTTK (some d) (some r) (some 0) := by
  have hng : ¬(d ≤ 0 ∨ r ≤ 0) := by push_neg; exact ⟨hd, hr⟩
  have hmain : calculateRecoilAdjustedTTK (some d) (some r) prec ctrl range wt =
      some (zeroFloor (round1 (((⌈PLAYER_HEALTH / d⌉ : ℚ) - 1) * (60000 / r)))) := by
    simp only [calculateRecoilAdjustedTTK]
    rw [if_neg hng, if_pos himm]
  constructor
  · rw [hmain]
    simp only [round1, jsRound, zeroFloor, PLAYER_HEALTH]
  · rw [hmain, calculateTTK_pos_eq hd hr]
    simp [jsOrZero]

/-- C3 witness: a Sniper Rifle with damage 75 and rpm 40 — the recoil-adjusted
TTK coincides with the hip-fire TTK and equals 1500 ms, whatever precision,
control and range are passed. -/
theorem claim3_witness :
    calculateRecoilAdjustedTTK (some 75) (some 40) 20 30 "35M" "Sniper Rifle" =
      calculateTTK (some 75) (some 40) (some 0) ∧
    calculateRecoilAdjustedTTK (some 75) (some 40) 20 30 "35M" "Sniper Rifle" = some 1500 := by
  have h := claim3_immunity 75 40 20 30 "35M" "Sniper Rifle" (by norm_num) (by norm_num)
    (Or.inl (by decide))
  have e : calculateTTK (some 75) (some 40) (some 0) = some 1500 := by
    rw [calculateTTK_pos_eq (by norm_num) (by norm_num)]
    rw [show ⌈PLAYER_HEALTH / (75 : ℚ)⌉ = 2 from
      qceil_eq 2 (by norm_num [PLAYER_HEALTH]) (by norm_num [PLAYER_HEALTH])]
    rw [round1_eval 15000 (by norm_num [jsOrZero]) (by norm_num [jsOrZero])]
    norm_num [zeroFloor]
  exact ⟨h.2, h.2.trans e⟩

/-- C10 (amended): a defined result of 0 is impossible for both TTK
calculators, so a defined TTK never collides with the `aValue || Infinity`
undefined-last sentinel of the `'ttk'` sort (final conjunct).  Moreover every
defined result is strictly positive whenever the effective ADS time is
non-negative, and unconditionally so for the recoil-adjusted calculator.
(The unrestricted positivity in the original claim fails for a negative ADS
argument to `calculateTTK` — see the counterexample.) -/
theorem claim10_no_sentinel_collision :
    (∀ (d r a : Option ℚ) (v : ℚ), calculateTTK d r a = some v → v ≠ 0) ∧
    (∀ (d r a : Option ℚ) (v : ℚ), 0 ≤ jsOrZero a → calculateTTK d r a = some v → 0 < v) ∧
    (∀ (d r : Option ℚ) (p c : ℚ) (rg wt : String) (v : ℚ),
      calculateRecoilAdjustedTTK d r p c rg wt = some v → 0 < v) ∧
    (∀ (d r : Option ℚ) (p c : ℚ) (rg wt : String) (v : ℚ),
      calculateRecoilAdjustedTTK d r p c rg wt = some v → v ≠ 0) ∧
    (∀ (w : Weapon) (rg : String), ttkSortKey w rg = ⊤ ↔ ttkOf w rg = none) := by
  have hne : ∀ (d r a : Option ℚ) (v : ℚ), calculateTTK d r a = some v → v ≠ 0 :=
    fun d r a v h => calculateTTK_some_ne_zero h
  refine ⟨hne, ?_, ?_, ?_, ?_⟩
  · intro d r a v ha h
    rcases d with _ | dv
    · simp [calculateTTK] at h
    rcases r with _ | rv
    · simp [calculateTTK] at h
    by_cases hg : dv ≤ 0 ∨ rv ≤ 0
    · simp [calculateTTK, hg] at h
    · push_neg at hg
      exact calculateTTK_some_pos hg.1 hg.2 ha h
  · intro d r p c rg wt v h
    exact calculateRecoilAdjustedTTK_some_pos h
  · intro d r p c rg wt v h
    exact (calculateRecoilAdjustedTTK_some_pos h).ne'
  · intro w rg
    constructor
    · intro h
      rcases ho : ttkOf w rg with _ | v
      · rfl
      · have hv0 : v ≠ 0 := hne _ _ _ _ ho
        have hk : ttkSortKey w rg = if v = 0 then ⊤ else (v : WithTop ℚ) := by
          unfold ttkSortKey
          rw [ho]
        rw [hk, if_neg hv0] at h
        exact absurd h (WithTop.coe_ne_top)
    · intro h
      unfold ttkSortKey
      rw [h]

/-- C10 counterexample: with a negative ADS argument `calculateTTK` returns a
defined negative value, refuting the claim's unrestricted "strictly positive". -/
theorem claim10_counterexample :
    calculateTTK (some 100) (some 60) (some (-5)) = some (-5) ∧ ¬ (0 < (-5 : ℚ)) := by
  constructor
  · rw [calculateTTK_pos_eq (by norm_num) (by norm_num)]
    rw [show ⌈PLAYER_HEALTH / (100 : ℚ)⌉ = 1 from
      qceil_eq 1 (by norm_num [PLAYER_HEALTH]) (by norm_num [PLAYER_HEALTH])]
    rw [round1_eval (-50) (by norm_num [jsOrZero]) (by norm_num [jsOrZero])]
    norm_num [zeroFloor]
  · norm_num

/-- C10 witness: the amended theorem at a concrete recoil-adjusted call. -/
theorem claim10_witness :
    calculateRecoilAdjustedTTK (some 25) (some 600) 10 10 "10M" "SMG" = some 400 ∧
    (0 : ℚ) < 400 := by
  have e : calculateRecoilAdjustedTTK (some 25) (some 600) 10 10 "10M" "SMG" = some 400 := by
    rw [recoil_nonimmune_eval (by norm_num) (by norm_num) (by decide) 4 5 (9/10)
      (qceil_eq 4 (by norm_num [PLAYER_HEALTH]) (by norm_num [PLAYER_HEALTH]))
      (by norm_num [getRangeAccuracyMultiplier, max_def, min_def])
      (qceil_eq 5 (by norm_num) (by norm_num))]
    rw [round1_eval 4000 (by norm_num) (by norm_num)]
    norm_num [zeroFloor]
  refine ⟨e, ?_⟩
  exact claim10_no_sentinel_collision.2.2.1 (some 25) (some 600) 10 10 "10M" "SMG" 400 e

/-- C4: for a non-immune weapon type with positive damage and rpm, the hit
probability used by `calculateRecoilAdjustedTTK` is the clamp to [0.05, 1.0]
of `(precision/100)·(control/100)·rangeMultiplier(range)`, floored at 0.90
first when the range is 10M; consequently the probability is never below 0.05
nor above 1, at 10M it is never below 0.90 (even for precision = control =
10), and — for precision and control in their documented [0,100] domain — the
probability at 10M is exactly `max(0.90, computed)`, so the expected shot
count is `ceil(requiredHits / max(0.90, computed))`. -/
theorem claim4_near_range_floor (d r prec ctrl : ℚ) (range wt : String)
    (hd : 0 < d) (hr : 0 < r)
    (himm : ¬(jsToUpperCase wt = "SNIPER RIFLE" ∨ jsToUpperCase wt = "SHOTGUN")) :
    ∀ computed adjusted p : ℚ,
      computed = (prec / 100) * (ctrl / 100) * getRangeAccuracyMultiplier range →
      adjusted = (if range = "10M" then max computed (9/10) else computed) →
      p = min 1 (max (1/20) adjusted) →
      (1/20 ≤ p ∧ p ≤ 1) ∧
      (range = "10M" → 9/10 ≤ p) ∧
      calculateRecoilAdjustedTTK (some d) (some r) prec ctrl range wt =
        some (zeroFloor (round1 (((⌈(⌈PLAYER_HEALTH / d⌉ : ℚ) / p⌉ : ℚ) - 1) * (60000 / r)))) ∧
      (range = "10M" → 0 ≤ prec → prec ≤ 100 → 0 ≤ ctrl → ctrl ≤ 100 →
        p = max (9/10) computed) := by
  intro computed adjusted p hc hadj hp
  have hng : ¬((d : ℚ) ≤ 0 ∨ (r : ℚ) ≤ 0) := by push_neg; exact ⟨hd, hr⟩
  refine ⟨⟨?_, ?_⟩, ?_, ?_, ?_⟩
  · rw [hp]
    exact le_min (by norm_num) (le_max_left _ _)
  · rw [hp]
    exact min_le_left _ _
  · intro h10
    rw [hp, hadj, if_pos h10]
    refine le_min (by norm_num) ?_
    exact le_trans (le_max_right computed (9/10)) (le_max_right (1/20) _)
  · subst hc hadj hp
    simp only [calculateRecoilAdjustedTTK]
    rw [if_neg hng, if_neg himm]
  · intro h10 hp0 hp1 hc0 hc1
    have hmult : getRangeAccuracyMultiplier range = 1 := by
      rw [h10]
      rfl
    have hc01 : 0 ≤ computed ∧ computed ≤ 1 := by
      rw [hc, hmult, mul_one]
      constructor
      · positivity
      · have h1 : prec / 100 ≤ 1 := by linarith
        have h2 : ctrl / 100 ≤ 1 := by linarith
        have h3 : 0 ≤ prec / 100 := by linarith
        have h4 : 0 ≤ ctrl / 100 := by linarith
        nlinarith
    rw [hp, hadj, if_pos h10]
    have hmax : max (1/20 : ℚ) (max computed (9/10)) = max computed (9/10) :=
      max_eq_right (le_trans (by norm_num) (le_max_right computed (9/10)))
    have hmin : min (1 : ℚ) (max computed (9/10)) = max computed (9/10) :=
      min_eq_right (max_le hc01.2 (by norm_num))
    rw [hmax, hmin, max_comm]

/-- C4 witness: the theorem at damage 25, rpm 600, precision 10, control 10,
range 10M, type SMG — the near-range floor makes the probability 0.90. -/
theorem claim4_witness :
    (9/10 : ℚ) ≤ min 1 (max (1/20)
      (if ("10M" : String) = "10M"
        then max ((10/100) * ((10 : ℚ)/100) * getRangeAccuracyMultiplier "10M") (9/10)
        else (10/100) * ((10 : ℚ)/100) * getRangeAccuracyMultiplier "10M")) ∧
    min (1 : ℚ) (max (1/20)
      (if ("10M" : String) = "10M"
        then max ((10/100) * ((10 : ℚ)/100) * getRangeAccuracyMultiplier "10M") (9/10)
        else (10/100) * ((10 : ℚ)/100) * getRangeAccuracyMultiplier "10M")) =
      max (9/10) ((10/100) * ((10 : ℚ)/100) * getRangeAccuracyMultiplier "10M") := by
  have h := claim4_near_range_floor 25 600 10 10 "10M" "SMG" (by norm_num) (by norm_num)
    (by decide) _ _ _ rfl rfl rfl
  exact ⟨h.2.1 rfl, h.2.2.2 rfl (by norm_num) (by norm_num) (by norm_num) (by norm_num)⟩

/-- C6 (amended): `getDamageDropoff` is undefined exactly when the start
damage is unknown or zero **or the end damage is unknown or zero** (the
JavaScript guard `!startDamage || !endDamage` also rejects a known end damage
of 0); otherwise it returns `((damageA - damageB) / damageA) * 100` rounded
to one decimal place. -/
theorem claim6_dropoff (w : Weapon) (ra rb : String) :
    (getDamageDropoff w ra rb = none ↔
      damageAt w ra = none ∨ damageAt w ra = some 0 ∨
      damageAt w rb = none ∨ damageAt w rb = some 0) ∧
    (∀ s e : ℚ, damageAt w ra = some s → damageAt w rb = some e → s ≠ 0 → e ≠ 0 →
      getDamageDropoff w ra rb = some (((⌊(s - e) / s * 100 * 10 + 1/2⌋ : ℤ) : ℚ) / 10)) := by
  constructor
  · rcases hA : damageAt w ra with _ | s
    · simp [getDamageDropoff, hA]
    · rcases hB : damageAt w rb with _ | e
      · simp [getDamageDropoff, hA, hB]
      · simp only [getDamageDropoff, hA, hB]
        split
        · simp_all
        · simp_all
  · intro s e hA hB hs he
    simp [getDamageDropoff, hA, hB, hs, he, round1, jsRound]

/-- C6 counterexample: start damage 50 (known, nonzero), end damage 0
(known): the claim's "undefined exactly when damageA is unknown or zero or
damageB is unknown" demands a defined result here, but the code returns
undefined because `!endDamage` is also true for 0. -/
theorem claim6_counterexample :
    ¬ (getDamageDropoff (Weapon.mk "SMG" "C" (some 50) none none none (some 0) none none none)
          "10M" "70M" = none ↔
       (damageAt (Weapon.mk "SMG" "C" (some 50) none none none (some 0) none none none)
          "10M" = none ∨
        damageAt (Weapon.mk "SMG" "C" (some 50) none none none (some 0) none none none)
          "10M" = some 0 ∨
        damageAt (Weapon.mk "SMG" "C" (some 50) none none none (some 0) none none none)
          "70M" = none)) := by
  decide

/-- C6 witness: from damage 50 at 10M to damage 25 at 70M the drop-off is
50.0 percent. -/
theorem claim6_witness :
    getDamageDropoff (Weapon.mk "SMG" "D" (some 50) none none none (some 25) none none none)
      "10M" "70M" = some 50 := by
  have h := (claim6_dropoff
    (Weapon.mk "SMG" "D" (some 50) none none none (some 25) none none none) "10M" "70M").2
    50 25 (by decide) (by decide) (by norm_num) (by norm_num)
  rw [h]
  rw [show ⌊((50 : ℚ) - 25) / 50 * 100 * 10 + 1/2⌋ = 500 from
    Int.floor_eq_iff.mpr (by norm_num)]
  norm_num

/-! ## Lemmas about the parse layer -/

lemma string_mk_eq_empty_iff (l : List Char) : (⟨l⟩ : String) = "" ↔ l = [] := by
  constructor
  · intro h
    have := congrArg String.data h
    simpa using this
  · intro h
    rw [h]

lemma dropWhile_head_not {p : Char → Bool} :
    ∀ (l : List Char) {x : Char} {xs : List Char}, l.dropWhile p = x :: xs → ¬ p x
  | [], x, xs, h => by simp [List.dropWhile] at h
  | c :: t, x, xs, h => by
    rw [List.dropWhile_cons] at h
    by_cases hc : p c
    · rw [if_pos hc] at h
      exact dropWhile_head_not t h
    · rw [if_neg hc] at h
      injection h with h1 h2
      rw [← h1]
      exact hc

lemma jsTrim_eq_empty_iff (s : String) :
    jsTrim s = "" ↔ s.data.dropWhile isJSWhitespace = [] := by
  unfold jsTrim
  rw [string_mk_eq_empty_iff, List.reverse_eq_nil_iff, List.dropWhile_eq_nil_iff]
  constructor
  · intro h
    rcases hD : s.data.dropWhile isJSWhitespace with _ | ⟨x, xs⟩
    · rfl
    · exact absurd (h x (by rw [hD]; exact List.mem_reverse.mpr (List.mem_cons_self _ _)))
        (dropWhile_head_not _ hD)
  · intro h
    rw [h]
    simp

lemma jsParseFloat_of_trim_empty {s : String} (h : jsTrim s = "") :
    jsParseFloat s = JSVal.nan := by
  have hD := (jsTrim_eq_empty_iff s).mp h
  unfold jsParseFloat
  rw [hD]
  decide

lemma parseNumeric_some_eq (s : String) :
    parseNumeric (some s) = if s = "" then none else
      (match jsParseFloat s with
       | JSVal.nan => none
       | w => some w) := rfl

lemma parseNumeric_isSome_iff (s : String) :
    (parseNumeric (some s)).isSome ↔ (s ≠ "" ∧ jsParseFloat s ≠ JSVal.nan) := by
  rw [parseNumeric_some_eq]
  by_cases he : s = ""
  · simp [he]
  · rw [if_neg he]
    rcases hf : jsParseFloat s with q | _ | _ | _ <;> simp [he, hf]

/-- C7 (amended): the normalizer's numeric parse yields a known value exactly
when the raw value is a string whose trimmed form is non-empty **and whose
longest numeric-literal prefix parses under `parseFloat`** (which may also be
the non-finite literal `Infinity`); every other input — `null`/`undefined`,
the empty or whitespace-only string, text with no numeric prefix — yields
unknown, never an error and never a 0 stand-in; and an unknown damage or rpm
propagates through `calculateTTK` as undefined.  (The original "parses as a
finite number" via a strict whole-string parse is refuted by the
counterexample `"12abc"`, whose prefix `12` is accepted.) -/
theorem claim7_parse_characterization (v : Option String) :
    ((parseNumeric v).isSome ↔
      ∃ s, v = some s ∧ jsTrim s ≠ "" ∧ jsParseFloat s ≠ JSVal.nan) ∧
    (∀ s, v = some s → jsTrim s = "" → parseNumeric v = none) ∧
    (∀ (r a : Option ℚ), calculateTTK none r a = none) ∧
    (∀ (d a : Option ℚ), calculateTTK d none a = none) := by
  refine ⟨?_, ?_, ?_, ?_⟩
  · rcases v with _ | s
    · simp [parseNumeric]
    · rw [parseNumeric_isSome_iff]
      constructor
      · rintro ⟨hne, hnan⟩
        exact ⟨s, rfl, fun htr => hnan (jsParseFloat_of_trim_empty htr), hnan⟩
      · rintro ⟨s', hs', htr, hnan⟩
        injection hs' with hss
        subst hss
        refine ⟨?_, hnan⟩
        intro he
        subst he
        exact htr (by decide)
  · intro s hv htr
    subst hv
    rw [parseNumeric_some_eq]
    by_cases he : s = ""
    · rw [if_pos he]
    · rw [if_neg he, jsParseFloat_of_trim_empty htr]
  · intro r a
    rcases r with _ | x <;> rfl
  · intro d a
    rcases d with _ | x <;> rfl

/-- C7 counterexample: the raw value `"12abc"` — its trimmed form does not
parse as a (finite) number under the spec's strict reading, yet the code's
`parseFloat`-based parse accepts the prefix `12` and stores a known value. -/
theorem claim7_counterexample :
    ¬ ((parseNumeric (some "12abc")).isSome ↔
        (jsTrim "12abc" ≠ "" ∧ (strictFiniteParse (jsTrim "12abc")).isSome)) := by
  decide

/-- C7 witness: the amended characterization applied at the raw value `"33"`. -/
theorem claim7_witness : (parseNumeric (some "33")).isSome :=
  (claim7_parse_characterization (some "33")).1.mpr ⟨"33", rfl, by decide, by decide⟩

/-- C2: the spec (and the repository README) document a 33→33.5 damage
correction at load time, but `processWeaponData`/`parseNumeric` contain no
such rule: a per-range raw value of `"33"` is stored as 33, not 33.5.  The
code contradicts its own documentation — a code bug. -/
theorem claim2_no_33_correction :
    (processWeaponData
        [RawRow.mk (some "SMG") (some "X") (some "33") (some "33") (some "25")
          (some "25") (some "25") (some "600") none (some "250")]).map
      (fun w => (w.d10M, w.d20M)) =
      [(some (JSVal.fin 33), some (JSVal.fin 33))] ∧
    (JSVal.fin 33 : JSVal) ≠ JSVal.fin (67/2) := by
  constructor
  · decide
  · intro h
    injection h with hq
    norm_num at hq

/-- C9: `getWeaponStatistics` reports a coverage percentage that is always a
genuine integer between 0 and 100 — `round(complete/total × 100)` when the
collection is non-empty and 0 when it is empty (no division-by-zero fault,
no NaN/non-finite value), and on the empty collection total = 0 with the
rendered coverage string `"0%"`. -/
theorem claim9_overall_statistics (ws : List Weapon) :
    (getWeaponStatistics ws).total = ws.length ∧
    (0 ≤ coverageValue ws ∧ coverageValue ws ≤ 100) ∧
    (ws = [] → (getWeaponStatistics ws).total = 0 ∧ coverageValue ws = 0 ∧
      (getWeaponStatistics ws).coverage = "0%") ∧
    (ws ≠ [] → coverageValue ws =
      jsRound ((((ws.filter (fun w => isWeaponDataComplete w)).length : ℚ) /
        (ws.length : ℚ)) * 100)) := by
  refine ⟨rfl, ?_, ?_, ?_⟩
  · simp only [coverageValue]
    by_cases ht : 0 < ws.length
    · rw [if_pos ht]
      have hfle : (ws.filter (fun w => isWeaponDataComplete w)).length ≤ ws.length :=
        List.length_filter_le _ _
      have hpos : (0 : ℚ) < (ws.length : ℚ) := by exact_mod_cast ht
      have h0 : (0 : ℚ) ≤
          ((ws.filter (fun w => isWeaponDataComplete w)).length : ℚ) / (ws.length : ℚ) * 100 := by
        positivity
      have h1 : ((ws.filter (fun w => isWeaponDataComplete w)).length : ℚ) /
          (ws.length : ℚ) * 100 ≤ 100 := by
        have hle : ((ws.filter (fun w => isWeaponDataComplete w)).length : ℚ) ≤
            (ws.length : ℚ) := by exact_mod_cast hfle
        have hd1 : ((ws.filter (fun w => isWeaponDataComplete w)).length : ℚ) /
            (ws.length : ℚ) ≤ 1 := by
          rw [div_le_one hpos]
          exact hle
        nlinarith
      unfold jsRound
      constructor
      · exact Int.le_floor.mpr (by push_cast; linarith)
      · exact Int.floor_le_iff.mpr (by push_cast; linarith)
    · rw [if_neg ht]
      norm_num
  · intro h
    subst h
    exact ⟨rfl, rfl, by decide⟩
  · intro h
    simp only [coverageValue]
    rw [if_pos (List.length_pos.mpr h)]

/-- C9 witness: the theorem at the empty collection. -/
theorem claim9_witness :
    (getWeaponStatistics []).total = 0 ∧ coverageValue [] = 0 ∧
    (getWeaponStatistics []).coverage = "0%" :=
  (claim9_overall_statistics ([] : List Weapon)).2.2.1 rfl

/-! ## Sorting (C5) -/

lemma ttkOf_some_ne_zero {w : Weapon} {rg : String} {v : ℚ}
    (h : ttkOf w rg = some v) : v ≠ 0 :=
  calculateTTK_some_ne_zero h

/-- C5: sorting by `'ttk'` returns a permutation of the input that is
non-decreasing in the effective sort key (defined TTK, with undefined mapped
to `+∞`), hence every record with a defined TTK precedes every record with an
undefined one; and the sort is stable — for every key value, the records
carrying it appear in the output in their input order.  The input list itself
is copied, not modified (the model is pure). -/
theorem claim5_sort_ttk_stable (ws : List Weapon) (range : String) :
    (sortWeapons ws "ttk" range).Perm ws ∧
    (sortWeapons ws "ttk" range).Pairwise
      (fun a b => ttkSortKey a range ≤ ttkSortKey b range) ∧
    (sortWeapons ws "ttk" range).Pairwise
      (fun a b => ttkOf b range ≠ none → ttkOf a range ≠ none) ∧
    (∀ k : Option ℚ,
      (sortWeapons ws "ttk" range).filter (fun w => decide (ttkOf w range = k)) =
        ws.filter (fun w => decide (ttkOf w range = k))) := by
  have hsw : sortWeapons ws "ttk" range = ws.mergeSort (ttkLE range) := by
    simp [sortWeapons]
  have htrans : ∀ (a b c : Weapon), ttkLE range a b → ttkLE range b c → ttkLE range a c := by
    intro a b c hab hbc
    exact decide_eq_true (le_trans (of_decide_eq_true hab) (of_decide_eq_true hbc))
  have htotal : ∀ (a b : Weapon), ttkLE range a b || ttkLE range b a := by
    intro a b
    rw [Bool.or_eq_true]
    rcases le_total (ttkSortKey a range) (ttkSortKey b range) with h | h
    · exact Or.inl (decide_eq_true h)
    · exact Or.inr (decide_eq_true h)
  have hsorted : (ws.mergeSort (ttkLE range)).Pairwise
      (fun a b => ttkSortKey a range ≤ ttkSortKey b range) :=
    (List.sorted_mergeSort htrans htotal ws).imp (fun h => of_decide_eq_true h)
  refine ⟨hsw ▸ List.mergeSort_perm ws (ttkLE range), hsw ▸ hsorted, ?_, ?_⟩
  · rw [hsw]
    refine hsorted.imp ?_
    intro a b hle hb hoa
    rcases hob : ttkOf b range with _ | v
    · exact hb hob
    · have hv0 : v ≠ 0 := ttkOf_some_ne_zero hob
      have hkb : ttkSortKey b range = (v : WithTop ℚ) := by
        unfold ttkSortKey
        rw [hob]
        show (if v = 0 then (⊤ : WithTop ℚ) else (v : WithTop ℚ)) = (v : WithTop ℚ)
        rw [if_neg hv0]
      have hka : ttkSortKey a range = ⊤ := by
        unfold ttkSortKey
        rw [hoa]
      rw [hka, hkb] at hle
      exact WithTop.coe_ne_top (top_le_iff.mp hle)
  · intro k
    rw [hsw]
    have hsubl : List.Sublist (ws.filter (fun w => decide (ttkOf w range = k))) ws :=
      List.filter_sublist ws
    have hpw : (ws.filter (fun w => decide (ttkOf w range = k))).Pairwise
        (fun a b => ttkLE range a b) := by
      apply List.pairwise_of_forall_mem_list
      intro x hx y hy
      have hxk : ttkOf x range = k := of_decide_eq_true (List.mem_filter.mp hx).2
      have hyk : ttkOf y range = k := of_decide_eq_true (List.mem_filter.mp hy).2
      have hk : ttkSortKey x range = ttkSortKey y range := by
        unfold ttkSortKey
        rw [hxk, hyk]
      exact decide_eq_true (le_of_eq hk)
    have h2 : List.Sublist (ws.filter (fun w => decide (ttkOf w range = k)))
        (ws.mergeSort (ttkLE range)) :=
      List.sublist_mergeSort htrans htotal hpw hsubl
    have h3 : ((ws.mergeSort (ttkLE range)).filter (fun w => decide (ttkOf w range = k))).Perm
        (ws.filter (fun w => decide (ttkOf w range = k))) :=
      (List.mergeSort_perm ws (ttkLE range)).filter _
    have h4 : List.Sublist (ws.filter (fun w => decide (ttkOf w range = k)))
        ((ws.mergeSort (ttkLE range)).filter (fun w => decide (ttkOf w range = k))) := by
      have h5 := h2.filter (fun w => decide (ttkOf w range = k))
      rwa [List.filter_eq_self.mpr (fun a ha => (List.mem_filter.mp ha).2)] at h5
    exact (h4.eq_of_length h3.length_eq.symm).symm

/-! ## Aggregation lemmas (C8) -/

lemma foldl_min_mem : ∀ (xs : List ℚ) (x : ℚ), xs.foldl min x ∈ x :: xs
  | [], x => List.mem_cons_self x []
  | y :: ys, x => by
    simp only [List.foldl_cons]
    rcases List.mem_cons.mp (foldl_min_mem ys (min x y)) with h1 | h1
    · rw [h1]
      rcases min_choice x y with hm | hm <;> rw [hm]
      · exact List.mem_cons_self _ _
      · exact List.mem_cons_of_mem _ (List.mem_cons_self _ _)
    · exact List.mem_cons_of_mem _ (List.mem_cons_of_mem _ h1)

lemma foldl_min_le : ∀ (xs : List ℚ) (x y : ℚ), y ∈ x :: xs → xs.foldl min x ≤ y
  | [], x, y, h => by
    simp only [List.foldl_nil]
    rcases List.mem_cons.mp h with h1 | h1
    · exact le_of_eq h1.symm
    · simp at h1
  | z :: zs, x, y, h => by
    simp only [List.foldl_cons]
    rcases List.mem_cons.mp h with h1 | h1
    · rw [h1]
      exact le_trans (foldl_min_le zs (min x z) (min x z) (List.mem_cons_self _ _))
        (min_le_left x z)
    · rcases List.mem_cons.mp h1 with h2 | h2
      · rw [h2]
        exact le_trans (foldl_min_le zs (min x z) (min x z) (List.mem_cons_self _ _))
          (min_le_right x z)
      · exact foldl_min_le zs (min x z) y (List.mem_cons_of_mem _ h2)

lemma foldl_max_mem : ∀ (xs : List ℚ) (x : ℚ), xs.foldl max x ∈ x :: xs
  | [], x => List.mem_cons_self x []
  | y :: ys, x => by
    simp only [List.foldl_cons]
    rcases List.mem_cons.mp (foldl_max_mem ys (max x y)) with h1 | h1
    · rw [h1]
      rcases max_choice x y with hm | hm <;> rw [hm]
      · exact List.mem_cons_self _ _
      · exact List.mem_cons_of_mem _ (List.mem_cons_self _ _)
    · exact List.mem_cons_of_mem _ (List.mem_cons_of_mem _ h1)

lemma foldl_max_le : ∀ (xs : List ℚ) (x y : ℚ), y ∈ x :: xs → y ≤ xs.foldl max x
  | [], x, y, h => by
    simp only [List.foldl_nil]
    rcases List.mem_cons.mp h with h1 | h1
    · exact le_of_eq h1
    · simp at h1
  | z :: zs, x, y, h => by
    simp only [List.foldl_cons]
    rcases List.mem_cons.mp h with h1 | h1
    · rw [h1]
      exact le_trans (le_max_left x z)
        (foldl_max_le zs (max x z) (max x z) (List.mem_cons_self _ _))
    · rcases List.mem_cons.mp h1 with h2 | h2
      · rw [h2]
        exact le_trans (le_max_right x z)
          (foldl_max_le zs (max x z) (max x z) (List.mem_cons_self _ _))
      · exact foldl_max_le zs (max x z) y (List.mem_cons_of_mem _ h2)

lemma foldl_add_eq_sum : ∀ (l : List ℚ) (init : ℚ), l.foldl (· + ·) init = init + l.sum
  | [], i => by simp
  | x :: xs, i => by
    simp only [List.foldl_cons, List.sum_cons]
    rw [foldl_add_eq_sum xs]
    ring

lemma foldl_rpm_sum : ∀ (l : List Weapon) (init : ℚ),
    l.foldl (fun s w => s + jsOrZero w.RPM) init = init + (l.filterMap (fun w => w.RPM)).sum
  | [], i => by simp
  | w :: t, i => by
    simp only [List.foldl_cons, List.filterMap_cons]
    rcases hr : w.RPM with _ | q
    · rw [show jsOrZero none = (0 : ℚ) from rfl, add_zero, foldl_rpm_sum t]
    · rw [show jsOrZero (some q) = q from rfl, foldl_rpm_sum t]
      simp only [List.sum_cons]
      ring

lemma jsMinList_eq_posInf_iff (l : List ℚ) : jsMinList l = JSVal.posInf ↔ l = [] := by
  rcases l with _ | ⟨x, xs⟩ <;> simp [jsMinList]

lemma jsMinList_fin {l : List ℚ} {q : ℚ} (h : jsMinList l = JSVal.fin q) :
    q ∈ l ∧ ∀ x ∈ l, q ≤ x := by
  rcases l with _ | ⟨x, xs⟩
  · simp [jsMinList] at h
  · simp only [jsMinList] at h
    injection h with hq
    rw [← hq]
    exact ⟨foldl_min_mem xs x, fun y hy => foldl_min_le xs x y hy⟩

lemma jsMaxList_eq_negInf_iff (l : List ℚ) : jsMaxList l = JSVal.negInf ↔ l = [] := by
  rcases l with _ | ⟨x, xs⟩ <;> simp [jsMaxList]

lemma jsMaxList_fin {l : List ℚ} {q : ℚ} (h : jsMaxList l = JSVal.fin q) :
    q ∈ l ∧ ∀ x ∈ l, x ≤ q := by
  rcases l with _ | ⟨x, xs⟩
  · simp [jsMaxList] at h
  · simp only [jsMaxList] at h
    injection h with hq
    rw [← hq]
    exact ⟨foldl_max_mem xs x, fun y hy => foldl_max_le xs x y hy⟩

lemma mkRangeStats_spec (ds : List ℚ) :
    (mkRangeStats ds = none ↔ ds = []) ∧
    (∀ rs, mkRangeStats ds = some rs →
      rs.minDamage ∈ ds ∧ (∀ q ∈ ds, rs.minDamage ≤ q) ∧
      rs.maxDamage ∈ ds ∧ (∀ q ∈ ds, q ≤ rs.maxDamage) ∧
      rs.avgDamage = ds.sum / (ds.length : ℚ)) := by
  rcases ds with _ | ⟨x, xs⟩
  · exact ⟨by simp [mkRangeStats], fun rs h => by simp [mkRangeStats] at h⟩
  · refine ⟨by simp [mkRangeStats], ?_⟩
    intro rs h
    simp only [mkRangeStats] at h
    have hrs := (Option.some.inj h).symm
    subst hrs
    refine ⟨foldl_min_mem xs x, fun q hq => foldl_min_le xs x q hq,
      foldl_max_mem xs x, fun q hq => foldl_max_le xs x q hq, ?_⟩
    show ((x :: xs).foldl (· + ·) 0) / ((x :: xs).length : ℚ) =
      (x :: xs).sum / ((x :: xs).length : ℚ)
    rw [foldl_add_eq_sum, zero_add]

/-- C8 (amended): for every collection and weapon type with at least one
record, the per-type statistics report per-range damage blocks computed only
over known damage values, each block omitted entirely exactly when no record
of the type has a known damage at that range; the RPM block, however, is
**always present**: its min and max are genuine extrema of the known RPM
values when any exist, degenerating to the `Infinity`/`-Infinity` fold units
(never a synthetic 0) when none do, and its mean is the sum of the known RPM
values divided by the number of records with a *nonzero* known RPM (NaN when
there are none). -/
theorem claim8_type_statistics (data : List Weapon) (t : String) (s : TypeStats)
    (h : getWeaponTypeStats data t = some s) :
    ∀ weapons : List Weapon, weapons = getWeaponsByType data t →
      (s.count = weapons.length ∧
        s.complete = (weapons.filter (fun w => isWeaponDataComplete w)).length) ∧
      ((s.rpmMin = JSVal.posInf ↔ weapons.filterMap (fun w => w.RPM) = []) ∧
        (∀ q : ℚ, s.rpmMin = JSVal.fin q →
          q ∈ weapons.filterMap (fun w => w.RPM) ∧
          ∀ x ∈ weapons.filterMap (fun w => w.RPM), q ≤ x)) ∧
      ((s.rpmMax = JSVal.negInf ↔ weapons.filterMap (fun w => w.RPM) = []) ∧
        (∀ q : ℚ, s.rpmMax = JSVal.fin q →
          q ∈ weapons.filterMap (fun w => w.RPM) ∧
          ∀ x ∈ weapons.filterMap (fun w => w.RPM), x ≤ q)) ∧
      (s.rpmAvg = jsDivVal ((weapons.filterMap (fun w => w.RPM)).sum)
        (((weapons.filter rpmTruthy).length : ℚ))) ∧
      ((s.range10M = none ↔ weapons.filterMap (fun w => w.d10M) = []) ∧
        (∀ rs, s.range10M = some rs →
          rs.minDamage ∈ weapons.filterMap (fun w => w.d10M) ∧
          (∀ q ∈ weapons.filterMap (fun w => w.d10M), rs.minDamage ≤ q) ∧
          rs.maxDamage ∈ weapons.filterMap (fun w => w.d10M) ∧
          (∀ q ∈ weapons.filterMap (fun w => w.d10M), q ≤ rs.maxDamage) ∧
          rs.avgDamage = (weapons.filterMap (fun w => w.d10M)).sum /
            ((weapons.filterMap (fun w => w.d10M)).length : ℚ))) ∧
      ((s.range20M = none ↔ weapons.filterMap (fun w => w.d20M) = []) ∧
        (∀ rs, s.range20M = some rs →
          rs.minDamage ∈ weapons.filterMap (fun w => w.d20M) ∧
          (∀ q ∈ weapons.filterMap (fun w => w.d20M), rs.minDamage ≤ q) ∧
          rs.maxDamage ∈ weapons.filterMap (fun w => w.d20M) ∧
          (∀ q ∈ weapons.filterMap (fun w => w.d20M), q ≤ rs.maxDamage) ∧
          rs.avgDamage = (weapons.filterMap (fun w => w.d20M)).sum /
            ((weapons.filterMap (fun w => w.d20M)).length : ℚ))) ∧
      ((s.range35M = none ↔ weapons.filterMap (fun w => w.d35M) = []) ∧
        (∀ rs, s.range35M = some rs →
          rs.minDamage ∈ weapons.filterMap (fun w => w.d35M) ∧
          (∀ q ∈ weapons.filterMap (fun w => w.d35M), rs.minDamage ≤ q) ∧
          rs.maxDamage ∈ weapons.filterMap (fun w => w.d35M) ∧
          (∀ q ∈ weapons.filterMap (fun w => w.d35M), q ≤ rs.maxDamage) ∧
          rs.avgDamage = (weapons.filterMap (fun w => w.d35M)).sum /
            ((weapons.filterMap (fun w => w.d35M)).length : ℚ))) ∧
      ((s.range50M = none ↔ weapons.filterMap (fun w => w.d50M) = []) ∧
        (∀ rs, s.range50M = some rs →
          rs.minDamage ∈ weapons.filterMap (fun w => w.d50M) ∧
          (∀ q ∈ weapons.filterMap (fun w => w.d50M), rs.minDamage ≤ q) ∧
          rs.maxDamage ∈ weapons.filterMap (fun w => w.d50M) ∧
          (∀ q ∈ weapons.filterMap (fun w => w.d50M), q ≤ rs.maxDamage) ∧
          rs.avgDamage = (weapons.filterMap (fun w => w.d50M)).sum /
            ((weapons.filterMap (fun w => w.d50M)).length : ℚ))) ∧
      ((s.range70M = none ↔ weapons.filterMap (fun w => w.d70M) = []) ∧
        (∀ rs, s.range70M = some rs →
          rs.minDamage ∈ weapons.filterMap (fun w => w.d70M) ∧
          (∀ q ∈ weapons.filterMap (fun w => w.d70M), rs.minDamage ≤ q) ∧
          rs.maxDamage ∈ weapons.filterMap (fun w => w.d70M) ∧
          (∀ q ∈ weapons.filterMap (fun w => w.d70M), q ≤ rs.maxDamage) ∧
          rs.avgDamage = (weapons.filterMap (fun w => w.d70M)).sum /
            ((weapons.filterMap (fun w => w.d70M)).length : ℚ))) := by
  intro weapons hw
  subst hw
  simp only [getWeaponTypeStats] at h
  by_cases hz : (getWeaponsByType data t).length = 0
  · rw [if_pos hz] at h
    exact absurd h (by simp)
  · rw [if_neg hz] at h
    have hs := (Option.some.inj h).symm
    subst hs
    refine ⟨⟨rfl, rfl⟩, ⟨jsMinList_eq_posInf_iff _, fun q hq => jsMinList_fin hq⟩,
      ⟨jsMaxList_eq_negInf_iff _, fun q hq => jsMaxList_fin hq⟩, ?_,
      mkRangeStats_spec _, mkRangeStats_spec _, mkRangeStats_spec _,
      mkRangeStats_spec _, mkRangeStats_spec _⟩
    show jsDivVal ((getWeaponsByType data t).foldl (fun s w => s + jsOrZero w.RPM) 0) _ = _
    rw [foldl_rpm_sum, zero_add]

/-- C8 counterexample: a type whose single record has no known RPM — the
claim requires the RPM block to be omitted (no placeholder), but the code
populates it with `Infinity`, `-Infinity` and `NaN`. -/
theorem claim8_counterexample :
    (getWeaponTypeStats [Weapon.mk "SMG" "Y" (some 30) none none none none none none none]
        "SMG").map (fun s => (s.rpmMin, s.rpmMax, s.rpmAvg)) =
      some (JSVal.posInf, JSVal.negInf, JSVal.nan) ∧
    ([Weapon.mk "SMG" "Y" (some 30) none none none none none none none].filterMap
        (fun w => w.RPM)) = [] := by
  constructor
  · simp [getWeaponTypeStats, getWeaponsByType, jsMinList, jsMaxList, jsDivVal,
      rpmTruthy, jsOrZero]
  · rfl

/-- C8 witness: the amended theorem applied to a one-record SMG collection
with known RPM 600 — its minimum RPM 600 is a genuine known value. -/
theorem claim8_witness :
    (600 : ℚ) ∈ ([Weapon.mk "SMG" "Z" (some 30) none none none none (some 600) none none].filterMap
      (fun w => w.RPM)) := by
  have heq : getWeaponTypeStats
      [Weapon.mk "SMG" "Z" (some 30) none none none none (some 600) none none] "SMG" =
      some (TypeStats.mk 1 0 (JSVal.fin 600) (JSVal.fin 600) (JSVal.fin 600)
        (some (RangeStats.mk 30 30 30)) none none none none) := by
    simp [getWeaponTypeStats, getWeaponsByType, jsMinList, jsMaxList, jsDivVal,
      rpmTruthy, jsOrZero, mkRangeStats, isWeaponDataComplete]
  have h := claim8_type_statistics _ "SMG" _ heq _ rfl
  exact (h.2.1.2 600 rfl).1

end BF6
